import Mathlib

/-!
Shallow embedding of the inaturalist-dumper scraping scripts
(`src/scrape.py` and `src/annotation.py`) and proofs about the claims of
the specification.  Pure fragments of the Python become Lean functions;
the single-coroutine annotation worker becomes an explicit step function
on a state record, driven with fuel; the filesystem is a list of file
names inside the image directory; the sqlite table `observations` is a
list of rows.
-/

namespace INat

/-! ## String helpers mirroring `os.path` and `str` operations -/

/-- Characters of a path after the last `/`: `os.path.basename` for a
POSIX path, on the character list. -/
def afterLastSlash (cs : List Char) : List Char :=
  cs.foldl (fun acc c => if c = '/' then [] else acc ++ [c]) []

/-- Embeds `os.path.basename`. -/
def basename (s : String) : String :=
  String.mk (afterLastSlash s.toList)

/-- Index of the last `.` in the character list, if any (helper for
`os.path.splitext`). -/
def lastDotIdxAux : List Char → Nat → Option Nat → Option Nat
  | [], _, acc => acc
  | c :: cs, i, acc => lastDotIdxAux cs (i + 1) (if c = '.' then some i else acc)

/-- Index of the last `.` in the character list, if any. -/
def lastDotIdx (cs : List Char) : Option Nat :=
  lastDotIdxAux cs 0 none

/-- Embeds the extension component of `os.path.splitext` (CPython
`posixpath.splitext`) applied to a basename (no `/` expected): the part
from the last dot on, unless every character before the last dot is
itself a dot (then there is no extension, as for `".bashrc"`). -/
def splitext_ext (s : String) : String :=
  let cs := s.toList
  match lastDotIdx cs with
  | none => ""
  | some d => if (cs.take d).all (fun c => c = '.') then "" else String.mk (cs.drop d)

/-- Fueled worker for `pyReplace`; the fuel is the length of the text, and
each step consumes at least one character of it. -/
def replaceAllAux (pat rep : List Char) : Nat → List Char → List Char
  | 0, cs => cs
  | _ + 1, [] => []
  | n + 1, c :: rest =>
    if pat.isPrefixOf (c :: rest) then
      rep ++ replaceAllAux pat rep n ((c :: rest).drop pat.length)
    else
      c :: replaceAllAux pat rep n rest

/-- Embeds Python `str.replace(pat, rep)` for a non-empty pattern: every
non-overlapping occurrence, scanned left to right, is replaced.  (The
source only ever replaces the non-empty literal `"medium"`.) -/
def pyReplace (s pat rep : String) : String :=
  String.mk (replaceAllAux pat.toList rep.toList s.toList.length s.toList)

/-! ## Data model -/

/-- Row of the sqlite `observations` table, restricted to the columns the
scripts read or write: `id`, `taxon_id`, `image_url`, `annotations`
(nullable). -/
structure ObsRow where
  id : Nat
  taxon_id : Nat
  image_url : String
  annotations : Option String := none
deriving DecidableEq, Repr

/-- Raw row of an exported CSV (before the nullable `annotations` column
is added by `load_observations`). -/
structure RawRow where
  id : Nat
  taxon_id : Nat
  image_url : String
deriving DecidableEq, Repr

/-! ## `src/scrape.py` -/

/-- Pandas `drop_duplicates` keeps the first occurrence of each distinct
row, preserving order; `seen` accumulates the rows already emitted. -/
def dedupFirstAux (seen : List RawRow) : List RawRow → List RawRow
  | [] => []
  | r :: rs => if r ∈ seen then dedupFirstAux seen rs else r :: dedupFirstAux (r :: seen) rs

/-- Embeds `df.drop_duplicates(inplace=True)`. -/
def dedupFirst (rows : List RawRow) : List RawRow :=
  dedupFirstAux [] rows

/-- Embeds `load_observations` (src/scrape.py lines 24-53): read one
dataframe per exported `.zip` archive, `pd.concat` them — with zero
archives the `dataframes` list is empty and `pd.concat([])` raises
`ValueError` before anything is written — then drop duplicate rows, add
an `annotations` column that is `None` everywhere, and write the result
over the `observations` table with `if_exists="replace"`. -/
def load_observations (exports : List (List RawRow)) : Except String (List ObsRow) :=
  match exports with
  | [] => Except.error "ValueError: No objects to concatenate"
  | _ :: _ =>
    let df := dedupFirst exports.flatten
    Except.ok (df.map (fun r =>
      { id := r.id, taxon_id := r.taxon_id, image_url := r.image_url,
        annotations := none }))

/-- Observations table after a `load_observations` run against a prior
table state: the raised `ValueError` propagates before `to_sql`, leaving
the prior table untouched; a completed run replaces it with the freshly
built table. -/
def tableAfterLoad (priorDb : List ObsRow) (exports : List (List RawRow)) : List ObsRow :=
  match load_observations exports with
  | Except.error _ => priorDb
  | Except.ok t => t

/-- Embeds `get_urls` (src/scrape.py lines 57-76).  `rows` is the result
of `SELECT id, taxon_id, image_url FROM observations`; `fs` is the set of
file names present in the image directory, so that
`os.path.exists(os.path.join(IMAGE_DIR, name))` is `fs.contains name`.
The loop skips `.gif` URLs, substitutes `.jpg` for a bare `.` extension
before the existence check, and appends `(id, taxon_id,
image_url.replace("medium", image_size))` for rows whose target file is
missing (or always, under `force`). -/
def get_urls (rows : List ObsRow) (fs : List String) (image_size : String) (force : Bool) :
    List (Nat × Nat × String) :=
  match rows with
  | [] => []
  | r :: rs =>
    let ext := splitext_ext (basename r.image_url)
    if ext = ".gif" then
      get_urls rs fs image_size force
    else
      let ext2 := if ext = "." then ".jpg" else ext
      if !(fs.contains (toString r.id ++ ext2)) || force then
        (r.id, r.taxon_id, pyReplace r.image_url "medium" image_size) ::
          get_urls rs fs image_size force
      else
        get_urls rs fs image_size force

/-- Result of one HTTP GET in the image variant: a response with a status
code and a body, or a raised transport/parsing exception. -/
inductive Response where
  | http (status : Nat) (body : List Nat)
  | exn (msg : String)
deriving DecidableEq, Repr

/-- Everything one `download_image` call does: on a 200 response it writes
the body to a file named by the id plus the extension re-derived from the
URL; on any other status it logs the status; on an exception it logs the
message.  No branch re-enqueues the item, and no other effect exists in
the source (src/scrape.py lines 79-93). -/
inductive ImageOutcome where
  | saved (filename : String) (body : List Nat)
  | failedStatusLogged (status : Nat)
  | failedExnLogged (msg : String)
deriving DecidableEq, Repr

/-- Embeds `download_image` (src/scrape.py lines 79-93). -/
def download_image (image_id : Nat) (image_url : String) (resp : Response) : ImageOutcome :=
  match resp with
  | Response.http status body =>
    if status = 200 then
      ImageOutcome.saved (toString image_id ++ splitext_ext (basename image_url)) body
    else
      ImageOutcome.failedStatusLogged status
  | Response.exn m => ImageOutcome.failedExnLogged m

/-- Whether the outcome of one `download_image` attempt re-enqueues the
item for retry: the source has no queue in the image variant, and each
branch of `download_image` either writes the file or logs, so no outcome
does. -/
def imageOutcomeRequeues : ImageOutcome → Bool
  | ImageOutcome.saved _ _ => false
  | ImageOutcome.failedStatusLogged _ => false
  | ImageOutcome.failedExnLogged _ => false

/-- File written by an outcome, if any. -/
def imageOutcomeSaved : ImageOutcome → Option (String × List Nat)
  | ImageOutcome.saved name body => some (name, body)
  | ImageOutcome.failedStatusLogged _ => none
  | ImageOutcome.failedExnLogged _ => none

/-- Whether a fetch result counts as a failed attempt for the image
variant: a non-200 status or an exception. -/
def respFails : Response → Bool
  | Response.http status _ => decide (status ≠ 200)
  | Response.exn _ => true

/-- Filesystem effect of `download_images` (src/scrape.py lines 95-109):
every url is fetched exactly once by its own task; the saved files are
the `saved` outcomes and nothing else changes.  (The per-file effects of
the concurrent tasks touch distinct names, so the sequential fold gives
the resulting filesystem; the concurrency itself is modelled separately
for the semaphore analysis.)  Returns the final filesystem and the
outcome of each item, in order. -/
def download_images_run (fetch : Nat → String → Response) (fs : List String) :
    List (Nat × Nat × String) → List String × List ImageOutcome
  | [] => (fs, [])
  | u :: rest =>
    let o := download_image u.1 u.2.2 (fetch u.1 u.2.2)
    let fs2 := match o with
      | ImageOutcome.saved name _ => fs ++ [name]
      | _ => fs
    let r := download_images_run fetch fs2 rest
    (r.1, o :: r.2)

/-! ## Semaphore and scheduler model for `download_images`

The creation loop of `download_images` (src/scrape.py lines 95-109) runs
`async with sem:` around a body that only calls `asyncio.create_task` and
appends the task — it never awaits the created download — so the
semaphore slot is released at the end of the same iteration.
`asyncio.Semaphore.acquire` does not suspend while the count is positive,
and `download_image` itself never touches the semaphore, so the started
tasks are constrained only by `asyncio.gather`. -/

/-- Creation loop of `download_images`: each iteration acquires the
semaphore (blocking, i.e. `none`, only if the count is zero), creates one
task, and releases the slot before the next iteration.  Returns the final
semaphore count and the number of tasks created. -/
def createLoop : Nat → Nat → Nat → Option (Nat × Nat)
  | sem, tasks, 0 => some (sem, tasks)
  | sem, tasks, r + 1 =>
    if sem = 0 then none else createLoop (sem - 1 + 1) (tasks + 1) r

/-- State of the gather phase: tasks not yet started by the event loop,
tasks whose HTTP request is in flight, and finished tasks. -/
structure GatherState where
  notStarted : Nat
  inFlight : Nat
  done : Nat
deriving DecidableEq, Repr

/-- Event-loop steps during `asyncio.gather`: the loop may start any
scheduled task (running `download_image` up to its `session.get`
suspension — no semaphore guards this, since `download_image` never
acquires one), or a pending response may arrive and finish a task. -/
inductive GatherStep : GatherState → GatherState → Prop where
  | start (s : GatherState) (h : 0 < s.notStarted) :
      GatherStep s { notStarted := s.notStarted - 1, inFlight := s.inFlight + 1, done := s.done }
  | finish (s : GatherState) (h : 0 < s.inFlight) :
      GatherStep s { notStarted := s.notStarted, inFlight := s.inFlight - 1, done := s.done + 1 }

/-! ## `src/annotation.py` -/

/-- Embeds `get_observation_ids` (src/annotation.py lines 14-21), i.e.
`SELECT id FROM observations WHERE annotations IS NULL`. -/
def get_observation_ids (rows : List ObsRow) : List Nat :=
  (rows.filter (fun r => r.annotations.isNone)).map (fun r => r.id)

/-- Embeds `UPDATE observations SET annotations=? WHERE id=?`: every row
whose `id` matches gets the value; other rows are untouched. -/
def sqlUpdateAnnotations (rows : List ObsRow) (v : String) (id : Nat) : List ObsRow :=
  rows.map (fun r => if r.id = id then { r with annotations := some v } else r)

/-- Result of one annotation fetch
(`GET /v1/observations/{observation_id}`): a response with a status code
and, for the 200 case, the parsed payload — `total_results` and the label
list `[a["controlled_value"]["label"] for a in
observation.get("annotations", [])]` of `results[0]` — or a raised
transport/parsing exception. -/
inductive FetchResult where
  | http (status : Nat) (total_results : Nat) (labels : List String)
  | exn (msg : String)
deriving DecidableEq, Repr

/-- Log/console events the worker emits. -/
inductive LogEvent where
  | scraped (id : Nat) (v : String)
  | warnTotal (id : Nat) (total_results : Nat)
  | warnStatus (id : Nat) (status : Nat)
  | warnExn (id : Nat) (msg : String)
deriving DecidableEq, Repr

/-- What the worker body does with one fetch result, following the nesting
of `scrape_annotations` (src/annotation.py lines 27-60) exactly: status
200 with `total_results == 1` and a non-empty label list commits the
comma-joined labels; status 200 with one match but no labels falls out of
every branch (no commit, no requeue, no log); status 200 with
`total_results != 1` requeues and warns with the observed count; a non-200
status requeues and warns with the status; an exception requeues and warns
with the message. -/
inductive ItemAction where
  | commit (v : String)
  | drop
  | requeueTotal (total_results : Nat)
  | requeueStatus (status : Nat)
  | requeueExn (msg : String)
deriving DecidableEq, Repr

/-- Classification of one fetch result by the worker body. -/
def classify : FetchResult → ItemAction
  | FetchResult.http status total labels =>
    if status = 200 then
      if total = 1 then
        if labels.length > 0 then ItemAction.commit (String.intercalate "," labels)
        else ItemAction.drop
      else ItemAction.requeueTotal total
    else ItemAction.requeueStatus status
  | FetchResult.exn m => ItemAction.requeueExn m

/-- State of the single annotation worker coroutine.  `queue` is the FIFO
`asyncio.Queue` (dequeue at the head, `queue.put` appends at the tail);
`attempts id` counts how many times `id` has been fetched so far, so that
the network oracle — the `fetch` argument below — can answer differently
on retries; `pending` is the sqlite connection's view after `execute`,
`durable` the state after the last `commit`; `commits` records each
committed `(id, value)` in order; `log` the emitted events. -/
structure AnnoState where
  queue : List Nat
  attempts : Nat → Nat
  pending : List ObsRow
  durable : List ObsRow
  commits : List (Nat × String)
  log : List LogEvent

/-- Attempt counter after one more fetch of `id`. -/
def annoBump (att : Nat → Nat) (id : Nat) : Nat → Nat :=
  fun j => if j = id then att id + 1 else att j

/-- One iteration of the `while True` worker loop of `scrape_annotations`
(src/annotation.py lines 24-60): dequeue (`none` when the queue is empty —
`await queue.get()` then suspends forever, as nothing ever puts again),
fetch, classify, and apply the action.  A commit runs `execute` followed
immediately by `commit`, so `durable` catches up with `pending` inside the
same iteration. -/
def annoStep (fetch : Nat → Nat → FetchResult) (s : AnnoState) : Option AnnoState :=
  match s.queue with
  | [] => none
  | id :: rest =>
    let res := fetch id (s.attempts id)
    let att := annoBump s.attempts id
    match classify res with
    | ItemAction.commit v =>
      let p := sqlUpdateAnnotations s.pending v id
      some { queue := rest, attempts := att, pending := p, durable := p,
             commits := s.commits ++ [(id, v)], log := s.log ++ [LogEvent.scraped id v] }
    | ItemAction.drop =>
      some { s with queue := rest, attempts := att }
    | ItemAction.requeueTotal t =>
      some { s with queue := rest ++ [id], attempts := att,
                    log := s.log ++ [LogEvent.warnTotal id t] }
    | ItemAction.requeueStatus c =>
      some { s with queue := rest ++ [id], attempts := att,
                    log := s.log ++ [LogEvent.warnStatus id c] }
    | ItemAction.requeueExn m =>
      some { s with queue := rest ++ [id], attempts := att,
                    log := s.log ++ [LogEvent.warnExn id m] }

/-- Observable fate of a fueled run of the worker loop.  `returned v s`
would mean the call `scrape_annotations(session, conn, queue)` — and with
it `scrape_annotations_from_ids` — came back with value `v`; the loop is
`while True` with no `break` or `return`, so `annoRun` never builds this
constructor.  `blocked s` is the worker suspended forever on
`queue.get()` with the queue drained. -/
inductive RunResult where
  | returned (value : Option (List (String × Nat))) (s : AnnoState)
  | blocked (s : AnnoState)
  | outOfFuel (s : AnnoState)

/-- Fueled execution of the worker loop. -/
def annoRun (fetch : Nat → Nat → FetchResult) : Nat → AnnoState → RunResult
  | 0, s => RunResult.outOfFuel s
  | n + 1, s =>
    match annoStep fetch s with
    | none => RunResult.blocked s
    | some s2 => annoRun fetch n s2

/-- State carried by a run result. -/
def resultState : RunResult → AnnoState
  | RunResult.returned _ s => s
  | RunResult.blocked s => s
  | RunResult.outOfFuel s => s

/-- Whether a run result is a completed return at all. -/
def isReturned : RunResult → Bool
  | RunResult.returned _ _ => true
  | RunResult.blocked _ => false
  | RunResult.outOfFuel _ => false

/-- Whether a run result is a completed return carrying a result list. -/
def isReturnedList : RunResult → Bool
  | RunResult.returned (some _) _ => true
  | RunResult.returned none _ => false
  | RunResult.blocked _ => false
  | RunResult.outOfFuel _ => false

/-- Initial worker state built by `scrape_annotations_from_ids`
(src/annotation.py lines 62-77): the ids are put on the queue in order,
nothing fetched yet, the store untouched. -/
def initAnno (ids : List Nat) (db : List ObsRow) : AnnoState :=
  { queue := ids, attempts := fun _ => 0, pending := db, durable := db,
    commits := [], log := [] }

/-- Value of the `return` statement of `scrape_annotations_from_ids`: the
function body has no `return`, so were its final `await` ever to finish,
Python would return `None` — never a list. -/
def scrapeFromIdsReturnValue : Option (List (String × Nat)) := none

/-- Embeds the batch write of `main` (src/annotation.py lines 105-111):
`conn.executemany("UPDATE observations SET annotations=? WHERE id=?",
annotations)` applied to the value of `scrape_annotations_from_ids`.
Iterating `None` raises `TypeError`; a real list of pairs would fold the
per-row update. -/
def executemanyUpdate (db : List ObsRow) (pairs : Option (List (String × Nat))) :
    Except String (List ObsRow) :=
  match pairs with
  | none => Except.error "TypeError: NoneType object is not iterable"
  | some ps => Except.ok (ps.foldl (fun d p => sqlUpdateAnnotations d p.1 p.2) db)

/-- Replay of a commit log against a starting table: the per-item commits
are the writes the worker performed. -/
def commitReplay (db : List ObsRow) (commits : List (Nat × String)) : List ObsRow :=
  commits.foldl (fun d p => sqlUpdateAnnotations d p.2 p.1) db

/-- Fetch results on which the worker body commits: status 200, exactly
one match, at least one label. -/
def isCommitSuccess : FetchResult → Bool
  | FetchResult.http status total labels =>
    decide (status = 200) && decide (total = 1) && !labels.isEmpty
  | FetchResult.exn _ => false

/-- Fetch results on which the worker body re-queues the item: a non-200
status, a 200 with `total_results != 1`, or an exception.  (A 200 with one
match and no labels is neither: the worker drops it.) -/
def isRequeue : FetchResult → Bool
  | FetchResult.http status total _ =>
    decide (status ≠ 200) || decide (total ≠ 1)
  | FetchResult.exn _ => true

/-- Liveness measure for the drain proof: pending successful attempts
still owed to the items on the queue, where `sAt i` is the attempt index
at which `fetch i` first commits. -/
def annoMeasure (sAt : Nat → Nat) (s : AnnoState) : Nat :=
  (s.queue.map (fun i => sAt i + 1 - s.attempts i)).sum

/-! ## Spec-side definitions (for the refinement statements)

These two follow the specification's words for `get_urls` — a row is kept
when its URL extension is not the excluded `.gif` and either no file named
by the identifier plus extension exists or the force flag is set, and kept
rows become (image id, taxon id, size-substituted URL) triples — to be
compared with the loop embedded above. -/

/-- Predicate of the spec: the row survives the extension filter and the
existing-file pre-filter.  The extension used for the file name is the
effective one (`.jpg` substituted for a bare `.`), matching the file the
check targets. -/
def wantedRow (fs : List String) (force : Bool) (r : ObsRow) : Bool :=
  let ext := splitext_ext (basename r.image_url)
  decide (ext ≠ ".gif") &&
    (!(fs.contains (toString r.id ++ (if ext = "." then ".jpg" else ext))) || force)

/-- Triple of the spec: identifier, secondary identifier, and the URL with
the size variant substituted. -/
def urlTriple (image_size : String) (r : ObsRow) : Nat × Nat × String :=
  (r.id, r.taxon_id, pyReplace r.image_url "medium" image_size)

/-- Concrete fetch oracle used to instantiate the drain theorem: id 2
returns zero matches on its first attempt and one match labelled
"captive" afterwards; every other id returns one match labelled "wild"
immediately. -/
def fetchW : Nat → Nat → FetchResult :=
  fun i k =>
    if i = 2 then
      (if k = 0 then FetchResult.http 200 0 [] else FetchResult.http 200 1 ["captive"])
    else FetchResult.http 200 1 ["wild"]

/-- First committing attempt of `fetchW`, per id. -/
def sAtW : Nat → Nat :=
  fun i => if i = 2 then 1 else 0

/-! ## Helper lemmas -/

/-- With the queue drained the worker can only block on `queue.get()`. -/
theorem annoStep_nil (fetch : Nat → Nat → FetchResult) (s : AnnoState)
    (h : s.queue = []) : annoStep fetch s = none := by
  unfold annoStep
  rw [h]

/-- Shape of the step when the head item's fetch classifies as a commit. -/
theorem annoStep_commit (fetch : Nat → Nat → FetchResult) (s : AnnoState)
    (id : Nat) (rest : List Nat) (v : String)
    (hq : s.queue = id :: rest)
    (hc : classify (fetch id (s.attempts id)) = ItemAction.commit v) :
    annoStep fetch s = some
      { queue := rest, attempts := annoBump s.attempts id,
        pending := sqlUpdateAnnotations s.pending v id,
        durable := sqlUpdateAnnotations s.pending v id,
        commits := s.commits ++ [(id, v)],
        log := s.log ++ [LogEvent.scraped id v] } := by
  unfold annoStep
  rw [hq]
  simp [hc]

/-- Shape of the step when the head item's fetch classifies as a drop
(status 200, one match, no labels). -/
theorem annoStep_drop (fetch : Nat → Nat → FetchResult) (s : AnnoState)
    (id : Nat) (rest : List Nat)
    (hq : s.queue = id :: rest)
    (hc : classify (fetch id (s.attempts id)) = ItemAction.drop) :
    annoStep fetch s = some { s with queue := rest, attempts := annoBump s.attempts id } := by
  unfold annoStep
  rw [hq]
  simp [hc]

/-- Commit-success results classify as a commit of the comma-joined labels. -/
theorem classify_commit_of_success (r : FetchResult) (h : isCommitSuccess r = true) :
    ∃ labels, labels ≠ [] ∧ r = FetchResult.http 200 1 labels ∧
      classify r = ItemAction.commit (String.intercalate "," labels) := by
  cases r with
  | http st total labels =>
    simp only [isCommitSuccess, Bool.and_eq_true, decide_eq_true_eq,
      Bool.not_eq_true', List.isEmpty_eq_false] at h
    obtain ⟨⟨h1, h2⟩, h3⟩ := h
    subst h1; subst h2
    exact ⟨labels, h3, rfl, by simp [classify, List.length_pos.mpr h3]⟩
  | exn m => simp [isCommitSuccess] at h

/-- Requeue-class results classify as one of the three requeue actions. -/
theorem classify_requeue_of_isRequeue (r : FetchResult) (h : isRequeue r = true) :
    (∃ t, classify r = ItemAction.requeueTotal t) ∨
    (∃ c, classify r = ItemAction.requeueStatus c) ∨
    (∃ m, classify r = ItemAction.requeueExn m) := by
  cases r with
  | http st total labels =>
    simp only [isRequeue, Bool.or_eq_true, decide_eq_true_eq] at h
    by_cases h200 : st = 200
    · subst h200
      have ht : total ≠ 1 := by
        rcases h with h | h
        · exact absurd rfl h
        · exact h
      exact Or.inl ⟨total, by simp [classify, ht]⟩
    · exact Or.inr (Or.inl ⟨st, by simp [classify, h200]⟩)
  | exn m => exact Or.inr (Or.inr ⟨m, rfl⟩)

/-- Shape of the step when the head item's fetch result is requeue-class:
the item moves to the tail, a warning is appended, and nothing is written. -/
theorem annoStep_requeue (fetch : Nat → Nat → FetchResult) (s : AnnoState)
    (id : Nat) (rest : List Nat)
    (hq : s.queue = id :: rest)
    (hr : isRequeue (fetch id (s.attempts id)) = true) :
    ∃ s2, annoStep fetch s = some s2 ∧ s2.queue = rest ++ [id] ∧
      s2.attempts = annoBump s.attempts id ∧ s2.pending = s.pending ∧
      s2.durable = s.durable ∧ s2.commits = s.commits := by
  rcases classify_requeue_of_isRequeue _ hr with ⟨t, hc⟩ | ⟨c, hc⟩ | ⟨m, hc⟩
  · refine ⟨{ s with
        queue := rest ++ [id],
        attempts := annoBump s.attempts id,
        log := s.log ++ [LogEvent.warnTotal id t] }, ?_, rfl, rfl, rfl, rfl, rfl⟩
    unfold annoStep
    rw [hq]
    simp [hc]
  · refine ⟨{ s with
        queue := rest ++ [id],
        attempts := annoBump s.attempts id,
        log := s.log ++ [LogEvent.warnStatus id c] }, ?_, rfl, rfl, rfl, rfl, rfl⟩
    unfold annoStep
    rw [hq]
    simp [hc]
  · refine ⟨{ s with
        queue := rest ++ [id],
        attempts := annoBump s.attempts id,
        log := s.log ++ [LogEvent.warnExn id m] }, ?_, rfl, rfl, rfl, rfl, rfl⟩
    unfold annoStep
    rw [hq]
    simp [hc]

/-- Runs of the worker loop never reach a `return`: the loop is
`while True` with no exit. -/
theorem annoRun_isReturned_false (fetch : Nat → Nat → FetchResult) :
    ∀ (n : Nat) (s : AnnoState), isReturned (annoRun fetch n s) = false := by
  intro n
  induction n with
  | zero => intro s; rfl
  | succ m ih =>
    intro s
    cases h : annoStep fetch s with
    | none => simp [annoRun, h, isReturned]
    | some s2 => simpa [annoRun, h] using ih s2

/-- Rows of an updated table that carry the updated id carry the value. -/
theorem sqlUpdateAnnotations_mem (rows : List ObsRow) (v : String) (id : Nat)
    (r : ObsRow) (hr : r ∈ sqlUpdateAnnotations rows v id) (hid : r.id = id) :
    r.annotations = some v := by
  simp only [sqlUpdateAnnotations, List.mem_map] at hr
  obtain ⟨r0, _, hEq⟩ := hr
  by_cases h : r0.id = id
  · rw [if_pos h] at hEq
    subst hEq
    rfl
  · rw [if_neg h] at hEq
    subst hEq
    exact absurd hid h

/-! ## Claim C1 -/

/-- C1 counterexample: a failed `download_image` attempt (here a 404) is
only logged — the outcome carries no re-enqueue, and running
`download_images` over the single failing item ends with the filesystem
unchanged, the item's single logged-failure outcome, and nothing pending
anywhere, so the item is dropped rather than re-enqueued for retry. -/
theorem image_failure_not_requeued_cex :
    download_image 1 "https://a/p/medium.jpg" (Response.http 404 [])
      = ImageOutcome.failedStatusLogged 404 ∧
    imageOutcomeRequeues (ImageOutcome.failedStatusLogged 404) = false ∧
    download_images_run (fun _ _ => Response.http 404 []) [] [(1, 2, "https://a/p/medium.jpg")]
      = ([], [ImageOutcome.failedStatusLogged 404]) := by
  decide

/-- C1 (amended): in the image variant a failed attempt — a non-200
status or an exception — is only logged: `download_image` writes no file
for it and re-enqueues nothing, so the item is dropped (re-queueing on
failure exists only in the annotation variant). -/
theorem image_failure_dropped (id : Nat) (url : String) (resp : Response)
    (h : respFails resp = true) :
    imageOutcomeRequeues (download_image id url resp) = false ∧
    imageOutcomeSaved (download_image id url resp) = none := by
  cases resp with
  | http status body =>
    simp only [respFails, decide_eq_true_eq] at h
    simp [download_image, h, imageOutcomeRequeues, imageOutcomeSaved]
  | exn m => simp [download_image, imageOutcomeRequeues, imageOutcomeSaved]

/-- C1 witness: the amended theorem at a concrete failing response. -/
theorem image_failure_dropped_witness :
    respFails (Response.http 500 []) = true ∧
    (imageOutcomeRequeues (download_image 7 "https://a/p/medium.jpg" (Response.http 500 []))
        = false ∧
      imageOutcomeSaved (download_image 7 "https://a/p/medium.jpg" (Response.http 500 []))
        = none) :=
  ⟨by decide, image_failure_dropped 7 "https://a/p/medium.jpg" (Response.http 500 []) (by decide)⟩

/-! ## Claim C4 -/

/-- C4 counterexample: a fetch that returns HTTP 200 with exactly one
matching record and no derived labels is dropped silently — after the
step the queue is empty (the item was not re-queued), no warning was
logged, and the store is untouched — contradicting the claim that every
200-with-failed-precondition item is re-queued with a warning. -/
theorem anno_nolabel_dropped_cex :
    (annoStep (fun _ _ => FetchResult.http 200 1 [])
        (initAnno [7] [{ id := 7, taxon_id := 3, image_url := "u" }])).map
      (fun t => (t.queue, t.durable, t.commits, t.log))
      = some ([], [{ id := 7, taxon_id := 3, image_url := "u" }], [], []) := by
  decide

/-- C4 (amended): on an HTTP 200 whose payload fails the match-count
precondition (`total_results != 1`) the worker re-queues the same item,
logs a warning carrying the observed `total_results`, and writes nothing;
but on an HTTP 200 with exactly one match and no derived labels the item
is neither re-queued nor logged nor written — it is silently dropped. -/
theorem anno_precondition_behavior (fetch : Nat → Nat → FetchResult) (s : AnnoState)
    (id : Nat) (rest : List Nat) (total : Nat) (labels : List String)
    (hq : s.queue = id :: rest)
    (hf : fetch id (s.attempts id) = FetchResult.http 200 total labels) :
    (total ≠ 1 → ∃ s2, annoStep fetch s = some s2 ∧ s2.queue = rest ++ [id] ∧
      s2.log = s.log ++ [LogEvent.warnTotal id total] ∧
      s2.durable = s.durable ∧ s2.pending = s.pending ∧ s2.commits = s.commits) ∧
    (total = 1 → labels = [] → ∃ s2, annoStep fetch s = some s2 ∧ s2.queue = rest ∧
      s2.log = s.log ∧ s2.durable = s.durable ∧ s2.pending = s.pending ∧
      s2.commits = s.commits) := by
  constructor
  · intro htot
    have hc : classify (fetch id (s.attempts id)) = ItemAction.requeueTotal total := by
      rw [hf]
      simp [classify, htot]
    refine ⟨{ s with
        queue := rest ++ [id],
        attempts := annoBump s.attempts id,
        log := s.log ++ [LogEvent.warnTotal id total] }, ?_, rfl, rfl, rfl, rfl, rfl⟩
    unfold annoStep
    rw [hq]
    simp [hc]
  · intro htot hlab
    have hc : classify (fetch id (s.attempts id)) = ItemAction.drop := by
      rw [hf, htot, hlab]
      simp [classify]
    exact ⟨{ s with queue := rest, attempts := annoBump s.attempts id },
      annoStep_drop fetch s id rest hq hc, rfl, rfl, rfl, rfl, rfl⟩

/-- C4 witness: the amended theorem at a concrete zero-match response. -/
theorem anno_precondition_behavior_witness :
    ((0 : Nat) ≠ 1 → ∃ s2,
      annoStep (fun _ _ => FetchResult.http 200 0 [])
          (initAnno [7] [{ id := 7, taxon_id := 3, image_url := "u" }]) = some s2 ∧
      s2.queue = [] ++ [7] ∧
      s2.log = [] ++ [LogEvent.warnTotal 7 0] ∧
      s2.durable = [{ id := 7, taxon_id := 3, image_url := "u" }] ∧
      s2.pending = [{ id := 7, taxon_id := 3, image_url := "u" }] ∧
      s2.commits = []) ∧
    ((0 : Nat) = 1 → ([] : List String) = [] → ∃ s2,
      annoStep (fun _ _ => FetchResult.http 200 0 [])
          (initAnno [7] [{ id := 7, taxon_id := 3, image_url := "u" }]) = some s2 ∧
      s2.queue = [] ∧
      s2.log = [] ∧
      s2.durable = [{ id := 7, taxon_id := 3, image_url := "u" }] ∧
      s2.pending = [{ id := 7, taxon_id := 3, image_url := "u" }] ∧
      s2.commits = []) :=
  anno_precondition_behavior (fun _ _ => FetchResult.http 200 0 [])
    (initAnno [7] [{ id := 7, taxon_id := 3, image_url := "u" }]) 7 [] 0 [] rfl rfl

/-! ## Claim C5 -/

/-- C5: when the fetch returns HTTP 200 with exactly one matching record
and a non-empty label list, the worker updates the matching row's
`annotations` column to the labels joined with a comma, and the update is
committed — `durable` has caught up with `pending` — before the worker
dequeues its next item; the commit is also recorded. -/
theorem anno_commit_durable (fetch : Nat → Nat → FetchResult) (s : AnnoState)
    (id : Nat) (rest : List Nat) (labels : List String)
    (hq : s.queue = id :: rest)
    (hf : fetch id (s.attempts id) = FetchResult.http 200 1 labels)
    (hl : labels ≠ []) :
    ∃ s2, annoStep fetch s = some s2 ∧
      s2.pending = sqlUpdateAnnotations s.pending (String.intercalate "," labels) id ∧
      s2.durable = s2.pending ∧
      s2.queue = rest ∧
      s2.commits = s.commits ++ [(id, String.intercalate "," labels)] ∧
      ∀ r ∈ s2.durable, r.id = id →
        r.annotations = some (String.intercalate "," labels) := by
  have hc : classify (fetch id (s.attempts id))
      = ItemAction.commit (String.intercalate "," labels) := by
    rw [hf]
    simp [classify, List.length_pos.mpr hl]
  refine ⟨_, annoStep_commit fetch s id rest _ hq hc, rfl, rfl, rfl, rfl, ?_⟩
  intro r hr hid
  exact sqlUpdateAnnotations_mem _ _ _ r hr hid

/-- C5 witness: the theorem at a concrete two-label response. -/
theorem anno_commit_durable_witness :
    ∃ s2, annoStep (fun _ _ => FetchResult.http 200 1 ["Adult", "Female"])
        (initAnno [3] [{ id := 3, taxon_id := 9, image_url := "u" }]) = some s2 ∧
      s2.pending = sqlUpdateAnnotations [{ id := 3, taxon_id := 9, image_url := "u" }]
        (String.intercalate "," ["Adult", "Female"]) 3 ∧
      s2.durable = s2.pending ∧
      s2.queue = [] ∧
      s2.commits = [] ++ [(3, String.intercalate "," ["Adult", "Female"])] ∧
      ∀ r ∈ s2.durable, r.id = 3 →
        r.annotations = some (String.intercalate "," ["Adult", "Female"]) :=
  anno_commit_durable (fun _ _ => FetchResult.http 200 1 ["Adult", "Female"])
    (initAnno [3] [{ id := 3, taxon_id := 9, image_url := "u" }]) 3 [] ["Adult", "Female"]
    rfl rfl (by decide)

/-! ## Claim C7 -/

/-- C7: `get_observation_ids` returns exactly the identifiers of the rows
of the `observations` table whose `annotations` column is NULL, and no
others. -/
theorem get_observation_ids_spec (rows : List ObsRow) (i : Nat) :
    i ∈ get_observation_ids rows ↔ ∃ r ∈ rows, r.annotations = none ∧ r.id = i := by
  simp only [get_observation_ids, List.mem_map, List.mem_filter,
    Option.isNone_iff_eq_none]
  constructor
  · rintro ⟨r, ⟨hr, hnone⟩, hid⟩
    exact ⟨r, hr, hnone, hid⟩
  · rintro ⟨r, hr, hnone, hid⟩
    exact ⟨r, ⟨hr, hnone⟩, hid⟩

/-! ## Claim C9 -/

/-- C9 counterexample: with zero exported archives the run raises
`ValueError` at `pd.concat` before any write, so the prior table — here
a row carrying a previously committed annotation value — survives
intact: "every prior database state is discarded and every row of the
newly written table has annotations NULL" fails for this run. -/
theorem load_observations_empty_cex :
    load_observations ([] : List (List RawRow))
      = Except.error "ValueError: No objects to concatenate" ∧
    tableAfterLoad [{ id := 9, taxon_id := 9, image_url := "x", annotations := some "wild" }]
        ([] : List (List RawRow))
      = [{ id := 9, taxon_id := 9, image_url := "x", annotations := some "wild" }] :=
  ⟨rfl, rfl⟩

/-- C9 (amended): a run of `load_observations` with at least one exported
archive writes the `observations` table with `if_exists="replace"`: the
resulting table is the same whatever the prior database state — any
previously committed `annotations` values included — and every row of the
freshly written table has `annotations` NULL.  (A run with zero archives
raises `ValueError` at `pd.concat` before any write and leaves the prior
table, annotations included, in place.) -/
theorem load_observations_replace (prior prior2 : List ObsRow)
    (exports : List (List RawRow)) (hne : exports ≠ []) :
    tableAfterLoad prior exports = tableAfterLoad prior2 exports ∧
    (tableAfterLoad prior exports).all (fun r => r.annotations.isNone) = true := by
  cases exports with
  | nil => exact absurd rfl hne
  | cons e es =>
    refine ⟨rfl, ?_⟩
    simp only [tableAfterLoad, load_observations, List.all_eq_true, List.mem_map]
    rintro r ⟨r0, _, rfl⟩
    rfl

/-- C9 witness: the amended theorem at one archive of one row, against a
prior table that carries a committed annotation and an empty one. -/
theorem load_observations_replace_witness :
    ([[{ id := 1, taxon_id := 2, image_url := "u" }]] : List (List RawRow)) ≠ [] ∧
    (tableAfterLoad [{ id := 9, taxon_id := 9, image_url := "x", annotations := some "wild" }]
        [[{ id := 1, taxon_id := 2, image_url := "u" }]]
      = tableAfterLoad [] [[{ id := 1, taxon_id := 2, image_url := "u" }]] ∧
    (tableAfterLoad [{ id := 9, taxon_id := 9, image_url := "x", annotations := some "wild" }]
        [[{ id := 1, taxon_id := 2, image_url := "u" }]]).all
      (fun r => r.annotations.isNone) = true) :=
  ⟨by decide,
    load_observations_replace
      [{ id := 9, taxon_id := 9, image_url := "x", annotations := some "wild" }] []
      [[{ id := 1, taxon_id := 2, image_url := "u" }]] (by decide)⟩

/-! ## Claim C6 -/

/-- C6: `get_urls` returns exactly the rows of the `observations` table,
as (image id, taxon id, size-substituted URL) triples, whose URL
extension is not the excluded `.gif` and for which either no file named by
the identifier plus extension exists in the image directory or the
force-overwrite flag is set; in particular, with a pre-existing file
`42.jpg` and `force = false`, identifier 42 is excluded from the generated
work list entirely. -/
theorem get_urls_spec :
    (∀ (rows : List ObsRow) (fs : List String) (size : String) (force : Bool),
      get_urls rows fs size force = (rows.filter (wantedRow fs force)).map (urlTriple size)) ∧
    get_urls [{ id := 42, taxon_id := 7, image_url := "https://a/photos/medium.jpg" }]
      ["42.jpg"] "large" false = [] := by
  constructor
  · intro rows fs size force
    induction rows with
    | nil => rfl
    | cons r rs ih =>
      by_cases h1 : splitext_ext (basename r.image_url) = ".gif"
      · simp [get_urls, List.filter_cons, wantedRow, h1, ih]
      · by_cases h2 : (toString r.id ++
            (if splitext_ext (basename r.image_url) = "." then ".jpg"
             else splitext_ext (basename r.image_url))) ∉ fs ∨ force = true
        · simp [get_urls, List.filter_cons, wantedRow, urlTriple, h1, h2, ih]
        · simp [get_urls, List.filter_cons, wantedRow, urlTriple, h1, h2, ih]
  · decide

/-! ## Claim C10 -/

/-- C10: for a row whose URL basename has the bare extension `.`,
`get_urls` substitutes `.jpg` only for its existing-file check while a
successful `download_image` re-derives the extension from the URL and
writes the file named by the id plus `.`; those two names differ, so even
after a successful download (with the written file on disk) a subsequent
run with `force = false` still includes the item — the pre-filter never
excludes it. -/
theorem dot_extension_never_excluded (id taxon : Nat) (url : String)
    (fs : List String) (size : String) (body : List Nat)
    (hext : splitext_ext (basename url) = ".")
    (hfs : fs.contains (toString id ++ ".jpg") = false) :
    download_image id url (Response.http 200 body)
      = ImageOutcome.saved (toString id ++ ".") body ∧
    toString id ++ "." ≠ toString id ++ ".jpg" ∧
    get_urls [{ id := id, taxon_id := taxon, image_url := url }]
        ((toString id ++ ".") :: fs) size false
      = [(id, taxon, pyReplace url "medium" size)] := by
  have hne : toString id ++ "." ≠ toString id ++ ".jpg" := by
    intro h
    have hdata := congrArg String.data h
    rw [String.data_append, String.data_append] at hdata
    have : (".").data = (".jpg").data := List.append_cancel_left hdata
    exact absurd this (by decide)
  refine ⟨?_, hne, ?_⟩
  · simp [download_image, hext]
  · simp [get_urls, hext]
    refine ⟨Ne.symm hne, fun hmem => ?_⟩
    have hc2 : fs.contains (toString id ++ ".jpg") = true := by
      simp [List.contains, List.elem_iff, hmem]
    simp [hc2] at hfs
    exact hfs hmem

/-- C10 witness: the theorem at identifier 42 and a URL whose basename is
`medium.`, after its own successful download put `42.` on disk. -/
theorem dot_extension_never_excluded_witness :
    splitext_ext (basename "https://a/photos/medium.") = "." ∧
    ([] : List String).contains (toString (42 : Nat) ++ ".jpg") = false ∧
    (download_image 42 "https://a/photos/medium." (Response.http 200 [1, 2])
        = ImageOutcome.saved (toString (42 : Nat) ++ ".") [1, 2] ∧
      toString (42 : Nat) ++ "." ≠ toString (42 : Nat) ++ ".jpg" ∧
      get_urls [{ id := 42, taxon_id := 7, image_url := "https://a/photos/medium." }]
          ((toString (42 : Nat) ++ ".") :: []) "large" false
        = [(42, 7, pyReplace "https://a/photos/medium." "medium" "large")]) :=
  ⟨by decide, by decide,
    dot_extension_never_excluded 42 7 "https://a/photos/medium." [] "large" [1, 2]
      (by decide) (by decide)⟩

/-! ## Claim C3 -/

/-- Event loop starts every scheduled task: from a state with `n` tasks
not yet started, repeatedly taking the `start` step reaches the state
where all of them are in flight. -/
theorem gather_start_all (n f d : Nat) :
    Relation.ReflTransGen GatherStep { notStarted := n, inFlight := f, done := d }
      { notStarted := 0, inFlight := f + n, done := d } := by
  induction n generalizing f with
  | zero => simpa using Relation.ReflTransGen.refl
  | succ m ih =>
    have hstep : GatherStep { notStarted := m + 1, inFlight := f, done := d }
        { notStarted := m, inFlight := f + 1, done := d } := by
      simpa using GatherStep.start { notStarted := m + 1, inFlight := f, done := d }
        (Nat.succ_pos m)
    have htail := ih (f + 1)
    have heq : f + 1 + m = f + (m + 1) := by omega
    rw [heq] at htail
    exact Relation.ReflTransGen.head hstep htail

/-- C3: the semaphore does not bound in-flight downloads.  With
`semaphore = 10` and 11 urls the creation loop never blocks (each
iteration releases its slot at task creation, so the count is back to 10
every time) and creates all 11 tasks; the gather phase can then reach a
state with all 11 HTTP requests simultaneously in flight — exceeding the
configured bound of 10, contrary to the claim and to the code's own
comment that the semaphore limits the number of concurrent downloads. -/
theorem semaphore_not_enforced :
    createLoop 10 0 11 = some (10, 11) ∧
    Relation.ReflTransGen GatherStep { notStarted := 11, inFlight := 0, done := 0 }
      { notStarted := 0, inFlight := 11, done := 0 } ∧
    10 < 11 := by
  refine ⟨by decide, ?_, by decide⟩
  simpa using gather_start_all 11 0 0

/-! ## Claim C8 -/

/-- One step preserves the commit-replay invariant: the connection's
pending view equals the durable view, and the durable view is exactly the
initial table with the per-item commits replayed. -/
theorem annoStep_replay (fetch : Nat → Nat → FetchResult) (db : List ObsRow)
    (s s2 : AnnoState) (h : annoStep fetch s = some s2)
    (h1 : s.pending = s.durable) (h2 : s.durable = commitReplay db s.commits) :
    s2.pending = s2.durable ∧ s2.durable = commitReplay db s2.commits := by
  cases hq : s.queue with
  | nil =>
    rw [annoStep_nil fetch s hq] at h
    cases h
  | cons id rest =>
    cases hc : classify (fetch id (s.attempts id)) with
    | commit v =>
      rw [annoStep_commit fetch s id rest v hq hc] at h
      cases h
      refine ⟨rfl, ?_⟩
      show sqlUpdateAnnotations s.pending v id = commitReplay db (s.commits ++ [(id, v)])
      rw [h1, h2]
      simp [commitReplay, List.foldl_append]
    | drop =>
      unfold annoStep at h
      rw [hq] at h
      simp only [hc] at h
      cases h
      exact ⟨h1, h2⟩
    | requeueTotal t =>
      unfold annoStep at h
      rw [hq] at h
      simp only [hc] at h
      cases h
      exact ⟨h1, h2⟩
    | requeueStatus c =>
      unfold annoStep at h
      rw [hq] at h
      simp only [hc] at h
      cases h
      exact ⟨h1, h2⟩
    | requeueExn m =>
      unfold annoStep at h
      rw [hq] at h
      simp only [hc] at h
      cases h
      exact ⟨h1, h2⟩

/-- Replay invariant carried to the final state of any fueled run. -/
theorem annoRun_replay_aux (fetch : Nat → Nat → FetchResult) (db : List ObsRow) :
    ∀ (n : Nat) (s : AnnoState), s.pending = s.durable →
      s.durable = commitReplay db s.commits →
      (resultState (annoRun fetch n s)).pending = (resultState (annoRun fetch n s)).durable ∧
      (resultState (annoRun fetch n s)).durable
        = commitReplay db (resultState (annoRun fetch n s)).commits := by
  intro n
  induction n with
  | zero => intro s h1 h2; exact ⟨h1, h2⟩
  | succ m ih =>
    intro s h1 h2
    cases hstep : annoStep fetch s with
    | none => simpa [annoRun, hstep, resultState] using And.intro h1 h2
    | some s2 =>
      obtain ⟨g1, g2⟩ := annoStep_replay fetch db s s2 hstep h1 h2
      simpa [annoRun, hstep] using ih s2 g1 g2

/-- Runs that never return cannot return a list. -/
theorem isReturnedList_eq_false (r : RunResult) (h : isReturned r = false) :
    isReturnedList r = false := by
  cases r with
  | returned v s => simp [isReturned] at h
  | blocked s => rfl
  | outOfFuel s => rfl

/-- C8: the annotation variant's run function produces no result list —
no fueled execution of `scrape_annotations_from_ids` ever reaches a
return carrying a list, and the function body's (implicit) return value is
`None` — while `main` nevertheless feeds that value to a batch
`executemany`, which can only raise on `None` and so never writes; the
durable table at the end of any run is exactly the initial table with the
worker's per-item commits replayed, making the per-item commit the only
persistence path. -/
theorem scrape_from_ids_no_result_list :
    (∀ (fetch : Nat → Nat → FetchResult) (n : Nat) (ids : List Nat) (db : List ObsRow),
      isReturnedList (annoRun fetch n (initAnno ids db)) = false) ∧
    scrapeFromIdsReturnValue = none ∧
    (∀ db : List ObsRow, executemanyUpdate db scrapeFromIdsReturnValue
      = Except.error "TypeError: NoneType object is not iterable") ∧
    (∀ (fetch : Nat → Nat → FetchResult) (n : Nat) (ids : List Nat) (db : List ObsRow),
      (resultState (annoRun fetch n (initAnno ids db))).durable
        = commitReplay db (resultState (annoRun fetch n (initAnno ids db))).commits) := by
  refine ⟨?_, rfl, fun db => rfl, ?_⟩
  · intro fetch n ids db
    exact isReturnedList_eq_false _ (annoRun_isReturned_false fetch n _)
  · intro fetch n ids db
    exact (annoRun_replay_aux fetch db n (initAnno ids db) rfl rfl).2

/-! ## Claim C2 -/

/-- Drain lemma: from any state whose queue is duplicate-free and whose
queued items each still owe at most their first committing attempt — the
fetch oracle committing for item `i` at attempt `sAt i` and re-queueing on
every earlier attempt — fuel one past the measure drives the worker to
the permanently blocked empty-queue state, with one new commit per queued
item. -/
theorem anno_drain_aux (fetch : Nat → Nat → FetchResult) (sAt : Nat → Nat) :
    ∀ (n : Nat) (s : AnnoState),
      s.queue.Nodup →
      (∀ i ∈ s.queue, s.attempts i ≤ sAt i ∧ isCommitSuccess (fetch i (sAt i)) = true ∧
        ∀ j < sAt i, isRequeue (fetch i j) = true) →
      annoMeasure sAt s ≤ n →
      ∃ s2, annoRun fetch (n + 1) s = RunResult.blocked s2 ∧ s2.queue = [] ∧
        s2.commits.length = s.commits.length + s.queue.length := by
  intro n
  induction n with
  | zero =>
    intro s hnd hinv hm
    cases hq : s.queue with
    | nil =>
      refine ⟨s, ?_, hq, by simp⟩
      simp [annoRun, annoStep_nil fetch s hq]
    | cons id rest =>
      exfalso
      have h1 := (hinv id (by rw [hq]; exact List.mem_cons_self id rest)).1
      have hms : annoMeasure sAt s
          = (sAt id + 1 - s.attempts id) + (rest.map (fun i => sAt i + 1 - s.attempts i)).sum := by
        simp [annoMeasure, hq]
      omega
  | succ m ih =>
    intro s hnd hinv hm
    cases hq : s.queue with
    | nil =>
      refine ⟨s, ?_, hq, by simp⟩
      simp [annoRun, annoStep_nil fetch s hq]
    | cons id rest =>
      have hid := hinv id (by rw [hq]; exact List.mem_cons_self id rest)
      have hndr : rest.Nodup := by
        rw [hq] at hnd
        exact (List.nodup_cons.mp hnd).2
      have hidnr : id ∉ rest := by
        rw [hq] at hnd
        exact (List.nodup_cons.mp hnd).1
      have hms : annoMeasure sAt s
          = (sAt id + 1 - s.attempts id) + (rest.map (fun i => sAt i + 1 - s.attempts i)).sum := by
        simp [annoMeasure, hq]
      by_cases hks : s.attempts id = sAt id
      · -- the head item's fetch commits now
        obtain ⟨labels, hlne, hfe, hcl⟩ := classify_commit_of_success _ hid.2.1
        have hc : classify (fetch id (s.attempts id))
            = ItemAction.commit (String.intercalate "," labels) := by
          rw [hks]
          exact hcl
        have hstep := annoStep_commit fetch s id rest _ hq hc
        obtain ⟨s3, hrun3, hq3, hlen3⟩ := ih
          { queue := rest, attempts := annoBump s.attempts id,
            pending := sqlUpdateAnnotations s.pending (String.intercalate "," labels) id,
            durable := sqlUpdateAnnotations s.pending (String.intercalate "," labels) id,
            commits := s.commits ++ [(id, String.intercalate "," labels)],
            log := s.log ++ [LogEvent.scraped id (String.intercalate "," labels)] }
          hndr
          (by
            intro i hi
            have hne : i ≠ id := fun he => hidnr (he ▸ hi)
            have hmem : i ∈ s.queue := by
              rw [hq]
              exact List.mem_cons_of_mem _ hi
            have := hinv i hmem
            simpa [annoBump, hne] using this)
          (by
            have hmap : rest.map (fun i => sAt i + 1 - annoBump s.attempts id i)
                = rest.map (fun i => sAt i + 1 - s.attempts i) := by
              apply List.map_congr_left
              intro i hi
              have hne : i ≠ id := fun he => hidnr (he ▸ hi)
              simp [annoBump, hne]
            have hms2 : annoMeasure sAt
                { queue := rest, attempts := annoBump s.attempts id,
                  pending := sqlUpdateAnnotations s.pending (String.intercalate "," labels) id,
                  durable := sqlUpdateAnnotations s.pending (String.intercalate "," labels) id,
                  commits := s.commits ++ [(id, String.intercalate "," labels)],
                  log := s.log ++ [LogEvent.scraped id (String.intercalate "," labels)] }
                = (rest.map (fun i => sAt i + 1 - s.attempts i)).sum := by
              simp only [annoMeasure]
              rw [hmap]
            rw [hms2]
            omega)
        refine ⟨s3, ?_, hq3, ?_⟩
        · show annoRun fetch (m + 1 + 1) s = RunResult.blocked s3
          rw [annoRun, hstep]
          exact hrun3
        · simp only [List.length_cons]
          simp only [List.length_append, List.length_cons] at hlen3
          simp at hlen3
          omega
      · -- the head item's fetch re-queues
        have hlt : s.attempts id < sAt id := lt_of_le_of_ne hid.1 hks
        have hr : isRequeue (fetch id (s.attempts id)) = true := hid.2.2 _ hlt
        obtain ⟨s2, hstep, hq2, hatt2, hp2, hd2, hcm2⟩ := annoStep_requeue fetch s id rest hq hr
        have hnd2 : s2.queue.Nodup := by
          rw [hq2]
          refine (List.perm_append_singleton id rest).symm.nodup ?_
          rw [hq] at hnd
          exact hnd
        obtain ⟨s3, hrun3, hq3, hlen3⟩ := ih s2
          hnd2
          (by
            intro i hi
            rw [hq2] at hi
            rcases List.mem_append.mp hi with hir | hii
            · have hne : i ≠ id := fun he => hidnr (he ▸ hir)
              have hmem : i ∈ s.queue := by
                rw [hq]
                exact List.mem_cons_of_mem _ hir
              have := hinv i hmem
              rw [hatt2]
              simpa [annoBump, hne] using this
            · have hii2 : i = id := by simpa using hii
              subst hii2
              rw [hatt2]
              refine ⟨?_, hid.2.1, hid.2.2⟩
              simp [annoBump]
              omega)
          (by
            have hmap : rest.map (fun i => sAt i + 1 - s2.attempts i)
                = rest.map (fun i => sAt i + 1 - s.attempts i) := by
              apply List.map_congr_left
              intro i hi
              have hne : i ≠ id := fun he => hidnr (he ▸ hi)
              rw [hatt2]
              simp [annoBump, hne]
            have hb : s2.attempts id = s.attempts id + 1 := by
              rw [hatt2]
              simp [annoBump]
            have hms2 : annoMeasure sAt s2
                = (rest.map (fun i => sAt i + 1 - s.attempts i)).sum
                  + (sAt id + 1 - s2.attempts id) := by
              rw [annoMeasure, hq2, List.map_append, List.sum_append, hmap]
              simp
            rw [hms2, hb]
            omega)
        refine ⟨s3, ?_, hq3, ?_⟩
        · show annoRun fetch (m + 1 + 1) s = RunResult.blocked s3
          rw [annoRun, hstep]
          exact hrun3
        · rw [hcm2, hq2] at hlen3
          simp only [List.length_append, List.length_cons] at hlen3 ⊢
          simp at hlen3
          omega

/-- C2 counterexample: with one queued id and a fetch that succeeds
immediately on every attempt, no amount of fuel ever makes the run call
return — the worker loop has no exit — so "the pool's run call returns
once the queue has been fully drained" fails even in the best case. -/
theorem anno_run_never_returns_cex :
    (∃ n v s2, annoRun (fun _ _ => FetchResult.http 200 1 ["wild"]) n
        (initAnno [1] [{ id := 1, taxon_id := 5, image_url := "u" }])
      = RunResult.returned v s2) = False := by
  apply eq_false
  rintro ⟨n, v, s2, h⟩
  have hf := annoRun_isReturned_false (fun _ _ => FetchResult.http 200 1 ["wild"]) n
    (initAnno [1] [{ id := 1, taxon_id := 5, image_url := "u" }])
  rw [h] at hf
  simp [isReturned] at hf

/-- C2 (amended): the run call of the annotation variant never returns —
the worker loop has no exit, and once the queue is drained it blocks
forever on dequeue — but for every duplicate-free id list and every fetch
oracle that, for each id, commits at some attempt (re-queueing on every
earlier attempt), some finite fuel drives the run to the blocked
empty-queue state with exactly one commit per distinct item. -/
theorem anno_run_drains_blocked (fetch : Nat → Nat → FetchResult) (ids : List Nat)
    (db : List ObsRow) (sAt : Nat → Nat)
    (hnd : ids.Nodup)
    (hs : ∀ i ∈ ids, isCommitSuccess (fetch i (sAt i)) = true ∧
      ∀ j < sAt i, isRequeue (fetch i j) = true) :
    (∀ (n : Nat) (v : Option (List (String × Nat))) (s2 : AnnoState),
      annoRun fetch n (initAnno ids db) ≠ RunResult.returned v s2) ∧
    ∃ n s2, annoRun fetch n (initAnno ids db) = RunResult.blocked s2 ∧
      s2.queue = [] ∧ s2.commits.length = ids.length := by
  constructor
  · intro n v s2 h
    have hf := annoRun_isReturned_false fetch n (initAnno ids db)
    rw [h] at hf
    simp [isReturned] at hf
  · obtain ⟨s2, h1, h2, h3⟩ := anno_drain_aux fetch sAt
      (annoMeasure sAt (initAnno ids db)) (initAnno ids db) hnd
      (fun i hi => ⟨Nat.zero_le _, (hs i hi).1, (hs i hi).2⟩) le_rfl
    exact ⟨_, s2, h1, h2, by simpa [initAnno] using h3⟩

/-- C2 witness: the amended theorem at ids [1, 2] with the concrete
oracle `fetchW`, under which id 2 first fails with zero matches and then
succeeds. -/
theorem anno_run_drains_blocked_witness :
    ([1, 2] : List Nat).Nodup ∧
    (∀ i ∈ ([1, 2] : List Nat), isCommitSuccess (fetchW i (sAtW i)) = true ∧
      ∀ j < sAtW i, isRequeue (fetchW i j) = true) ∧
    ((∀ (n : Nat) (v : Option (List (String × Nat))) (s2 : AnnoState),
      annoRun fetchW n (initAnno [1, 2] []) ≠ RunResult.returned v s2) ∧
    ∃ n s2, annoRun fetchW n (initAnno [1, 2] []) = RunResult.blocked s2 ∧
      s2.queue = [] ∧ s2.commits.length = ([1, 2] : List Nat).length) :=
  ⟨by decide, by decide,
    anno_run_drains_blocked fetchW [1, 2] [] sAtW (by decide) (by decide)⟩

end INat
